import Mathlib

/-!
Shallow embedding of the adaptive assessment engine of the studentlearning
app (`backend/app.py`, `backend/assignment_detail_service.py`), together with
theorems settling the behavioural claims about MCQ scoring, quiz lifecycle,
free-text grading fallback, dispute resolution, leaderboards and course
rating recomputation.

Conventions:
- Mongo documents become Lean structures; fields that may be absent or null
  become `Option` fields.
- Python floats on the grading paths hold exact small values, embedded as `ℚ`.
- A submitted answer entry is `Option ℤ`: `none` models a missing entry or an
  entry `int()` fails on; `some n` models an entry converting to integer `n`.
- Route handlers become functions `state → Except err state'`; web-layer
  concerns (session auth, ObjectId parsing, JSON transport) are outside the
  model.
-/

namespace StudentLearning

/-- Python's `str.strip()`: remove leading and trailing whitespace. -/
def strip (s : String) : String :=
  ⟨((s.data.dropWhile Char.isWhitespace).reverse.dropWhile
      Char.isWhitespace).reverse⟩

/-- One stored MCQ question (`question_set` entry of a `quiz_mcq` assignment
document created by `api_start_quiz_assignment`). -/
structure Question where
  question : String
  options : List String
  correct_index : ℤ
deriving Repr, DecidableEq, Inhabited

/-- One per-question grading record (`detailed_results` entry built by
`api_submit_quiz_assignment`). -/
structure QuizResult where
  question : String
  options : List String
  correct_index : ℤ
  user_answer : Option ℤ
  is_correct : Bool
deriving Repr, DecidableEq, Inhabited

/-- Embeds `user_answer = int(answers[idx]) if idx < len(answers) else None`, with
conversion failure mapped to `None` (an entry is already `Option ℤ`). -/
def userAnswerAt (answers : List (Option ℤ)) (idx : ℕ) : Option ℤ :=
  answers.getD idx none

/-- The scoring loop of `api_submit_quiz_assignment` (app.py 2639-2659):
walks the stored questions with their index, compares the converted user
answer with the stored `correct_index`, counts correct answers and builds
the `detailed_results` list. -/
def scoreLoop (questions : List Question) (answers : List (Option ℤ)) (idx : ℕ) :
    ℕ × List QuizResult :=
  match questions with
  | [] => (0, [])
  | q :: rest =>
    let user_answer := userAnswerAt answers idx
    let is_correct := decide (user_answer = some q.correct_index)
    let tail := scoreLoop rest answers (idx + 1)
    ((if is_correct then 1 else 0) + tail.1,
      ⟨q.question, q.options, q.correct_index, user_answer, is_correct⟩ :: tail.2)

/-- Rating clamp of `api_submit_quiz_assignment` (app.py 2666-2669):
`if rating < 0: rating = 0.0` then `if rating > 5: rating = 5.0`. -/
def clampRating (x : ℚ) : ℚ :=
  let x1 := if x < 0 then 0 else x
  if 5 < x1 then 5 else x1

/-- Outcome of grading one MCQ submission. -/
structure QuizGrade where
  correct_count : ℕ
  score : ℚ
  rating : ℚ
  feedback : String
  results : List QuizResult
deriving Repr, DecidableEq

/-- Pure MCQ grading of `api_submit_quiz_assignment` (app.py 2636-2672):
`score = float(correct_count)`, `rating = (score / num_questions) * 5.0`
when `num_questions > 0` (else `0.0`), then clamped. -/
def gradeQuiz (questions : List Question) (answers : List (Option ℤ)) : QuizGrade :=
  let num_questions := questions.length
  let r := scoreLoop questions answers 0
  let score : ℚ := r.1
  let rating :=
    clampRating (if 0 < num_questions then (score / num_questions) * 5 else 0)
  { correct_count := r.1
    score := score
    rating := rating
    feedback := "You answered " ++ toString r.1 ++ " out of " ++
      toString num_questions ++ " questions correctly."
    results := r.2 }

/-- The count the spec's formula describes: the number of indices `i` at
which the submitted answer equals the stored correct index of question `i`. -/
def specCorrectCount (questions : List Question) (answers : List (Option ℤ)) : ℕ :=
  ((List.range questions.length).filter
    (fun i => userAnswerAt answers i = some ((questions.getD i default).correct_index))).length

theorem scoreLoop_count (questions : List Question) (answers : List (Option ℤ))
    (idx : ℕ) :
    (scoreLoop questions answers idx).1 =
      ((List.range questions.length).filter
        (fun i =>
          userAnswerAt answers (idx + i) =
            some ((questions.getD i default).correct_index))).length := by
  induction questions generalizing idx with
  | nil => simp [scoreLoop]
  | cons q rest ih =>
    have hcongr :
        List.filter
            ((fun i => decide (userAnswerAt answers (idx + i) =
                some (((q :: rest).getD i default).correct_index))) ∘ Nat.succ)
            (List.range rest.length) =
        List.filter
            (fun i => decide (userAnswerAt answers (idx + 1 + i) =
                some ((rest.getD i default).correct_index)))
            (List.range rest.length) := by
      apply List.filter_congr
      intro i _
      have harith : idx + Nat.succ i = idx + 1 + i := by omega
      simp only [Function.comp_apply, harith, List.getD_cons_succ]
    simp only [scoreLoop]
    rw [ih (idx + 1), List.length_cons, List.range_succ_eq_map,
      List.filter_cons, List.filter_map, hcongr]
    by_cases h : userAnswerAt answers idx = some q.correct_index
    · simp [h, List.getD_cons_zero]
      omega
    · simp [h, List.getD_cons_zero]

theorem scoreLoop_count_le (questions : List Question) (answers : List (Option ℤ))
    (idx : ℕ) :
    (scoreLoop questions answers idx).1 ≤ questions.length := by
  induction questions generalizing idx with
  | nil => simp [scoreLoop]
  | cons q rest ih =>
    simp only [scoreLoop, List.length_cons]
    have := ih (idx + 1)
    split <;> omega

/-- An assignment document of the `assignments` collection.  Fields that the
code stores as `None` until completion are `Option`; `feedback` is created as
the empty string (app.py 2520-2537). -/
structure Assignment where
  assignment_type : String := "text"
  title : String := ""
  course : String := ""
  student_email : String := ""
  points : ℤ := 100
  status : String := "pending"
  difficulty_level : ℤ := 1
  question_set : List Question := []
  results : Option (List QuizResult) := none
  score : Option ℚ := none
  rating : Option ℚ := none
  feedback : String := ""
  student_answer : Option String := none
  completed_at : Option ℕ := none
  created_at : ℕ := 0
deriving Repr, DecidableEq, Inhabited

/-- Error outcomes of the modelled routes (each corresponds to an early
`return jsonify({"success": False, ...})` branch). -/
inductive ApiError where
  | notFound
  | notQuiz
  | noQuestions
  | validationError
deriving Repr, DecidableEq

/-- Handler `api_submit_quiz_assignment` (app.py 2608-2786) minus web-layer concerns:
rejects non-quiz assignments and quizzes with no stored questions, otherwise
grades the answers and unconditionally writes
`score, rating, feedback, status=completed, completed_at, results` in one
`update_one`.  Note: the handler performs no check on the current `status`. -/
def api_submit_quiz_assignment (a : Assignment) (answers : List (Option ℤ))
    (now : ℕ) : Except ApiError (Assignment × QuizGrade) :=
  if a.assignment_type ≠ "quiz_mcq" then .error .notQuiz
  else if a.question_set.isEmpty then .error .noQuestions
  else
    let g := gradeQuiz a.question_set answers
    .ok ({ a with
            score := some g.score
            rating := some g.rating
            feedback := g.feedback
            status := "completed"
            completed_at := some now
            results := some g.results }, g)

theorem clampRating_eq_self {x : ℚ} (h0 : 0 ≤ x) (h5 : x ≤ 5) :
    clampRating x = x := by
  simp only [clampRating]
  rw [if_neg (not_lt.mpr h0), if_neg (not_lt.mpr h5)]

theorem gradeQuiz_score_eq (questions : List Question)
    (answers : List (Option ℤ)) :
    (gradeQuiz questions answers).score = specCorrectCount questions answers := by
  simp only [gradeQuiz, specCorrectCount, scoreLoop_count questions answers 0]
  norm_cast
  congr 1
  apply List.filter_congr
  intro i _
  rw [Nat.zero_add]

/-- Example question set used by concrete witnesses. -/
def exQuestions : List Question :=
  [⟨"2+2", ["3", "4"], 1⟩, ⟨"1+1", ["2", "3"], 0⟩]

/-- Example pending MCQ quiz assignment document. -/
def exPendingQuiz : Assignment :=
  { assignment_type := "quiz_mcq", title := "Algebra - Level 1 MCQ Quiz",
    course := "Algebra", student_email := "s@example.com", points := 2,
    question_set := exQuestions }

/-- C1: for every MCQ quiz submission the computed score equals the count of
indices at which the submitted answer equals the stored correct index
(missing / non-integer / out-of-range entries, modelled as `none` or as a
non-matching integer, are simply not counted and never make the handler
fail), and the computed rating equals `5 * score / numQuestions`, which lies
in `[0, 5]` so the final clamp leaves it unchanged. -/
theorem mcq_submission_score_rating (qs : List Question)
    (answers : List (Option ℤ)) (a : Assignment) (now : ℕ)
    (hne : qs ≠ []) (hty : a.assignment_type = "quiz_mcq")
    (hqs : a.question_set = qs) :
    (gradeQuiz qs answers).score = specCorrectCount qs answers ∧
    (gradeQuiz qs answers).rating =
      5 * (gradeQuiz qs answers).score / qs.length ∧
    0 ≤ (gradeQuiz qs answers).rating ∧ (gradeQuiz qs answers).rating ≤ 5 ∧
    (api_submit_quiz_assignment a answers now).toOption.isSome = true := by
  have hlen : 0 < qs.length := List.length_pos.mpr hne
  have hcle : (scoreLoop qs answers 0).1 ≤ qs.length := scoreLoop_count_le qs answers 0
  have hval : (0 : ℚ) ≤ ((scoreLoop qs answers 0).1 : ℚ) / qs.length * 5 ∧
      ((scoreLoop qs answers 0).1 : ℚ) / qs.length * 5 ≤ 5 := by
    have hq : (0 : ℚ) < (qs.length : ℚ) := by exact_mod_cast hlen
    constructor
    · positivity
    · rw [div_mul_eq_mul_div, div_le_iff₀ hq]
      have : ((scoreLoop qs answers 0).1 : ℚ) ≤ (qs.length : ℚ) := by
        exact_mod_cast hcle
      nlinarith
  have hrate : (gradeQuiz qs answers).rating =
      ((scoreLoop qs answers 0).1 : ℚ) / qs.length * 5 := by
    simp only [gradeQuiz, if_pos hlen]
    exact clampRating_eq_self hval.1 hval.2
  refine ⟨gradeQuiz_score_eq qs answers, ?_, ?_, ?_, ?_⟩
  · rw [hrate]
    show ((scoreLoop qs answers 0).1 : ℚ) / qs.length * 5 =
      5 * (gradeQuiz qs answers).score / qs.length
    simp only [gradeQuiz]
    ring
  · rw [hrate]; exact hval.1
  · rw [hrate]; exact hval.2
  · simp only [api_submit_quiz_assignment, hty]
    rw [if_neg (by simp), if_neg (by simp [hqs, hne])]
    rfl

/-- Concrete instantiation of `mcq_submission_score_rating`. -/
theorem mcq_submission_score_rating_witness :
    (gradeQuiz exQuestions [some 1, some 1]).score =
      specCorrectCount exQuestions [some 1, some 1] ∧
    (gradeQuiz exQuestions [some 1, some 1]).rating =
      5 * (gradeQuiz exQuestions [some 1, some 1]).score / exQuestions.length ∧
    0 ≤ (gradeQuiz exQuestions [some 1, some 1]).rating ∧
    (gradeQuiz exQuestions [some 1, some 1]).rating ≤ 5 ∧
    (api_submit_quiz_assignment exPendingQuiz [some 1, some 1] 3).toOption.isSome
      = true :=
  mcq_submission_score_rating exQuestions [some 1, some 1] exPendingQuiz 3
    (by decide) (by decide) (by decide)

/-- Route `admin_update_assignment_marks` (app.py 1988-2023): overrides `score`
and/or `rating` with the supplied parsed floats (`none` models a missing,
empty or unparsable form field, for which the code stores nothing).  The
route reads and checks nothing else about the assignment — in particular it
never looks at `status`. -/
def admin_update_assignment_marks (a : Assignment)
    (score_raw rating_raw : Option ℚ) : Assignment :=
  { a with
      score := match score_raw with | some s => some s | none => a.score
      rating := match rating_raw with | some r => some r | none => a.rating }

/-- One question as found in the Oracle's decoded JSON (`quiz_data`):
`none` models a missing key (or, for `correct_index`, a value `int()`
rejects). -/
structure RawQuestion where
  question : Option String := none
  options : Option (List String) := none
  correct_index : Option ℤ := none
deriving Repr, DecidableEq, Inhabited

/-- Validation of a single Oracle question in `api_start_quiz_assignment`
(app.py 2489-2507): drop it when the stripped text is empty or it has fewer
than 2 options; keep at most 4 options; replace a missing, non-integer or
out-of-bounds correct index by 0. -/
def cleanOne (q : RawQuestion) : Option Question :=
  let text := strip (q.question.getD "")
  let opts := q.options.getD []
  if text = "" ∨ opts.length < 2 then none
  else
    let opts4 := opts.take 4
    let ci := q.correct_index.getD 0
    let ci2 := if ci < 0 ∨ (opts4.length : ℤ) ≤ ci then 0 else ci
    some ⟨text, opts4, ci2⟩

/-- The cleaning loop of `api_start_quiz_assignment` (app.py 2488-2509),
breaking once 10 questions have been kept. -/
def cleanQuestionsGo : List RawQuestion → ℕ → List Question
  | [], _ => []
  | q :: rest, kept =>
    match cleanOne q with
    | none => cleanQuestionsGo rest kept
    | some item =>
      if kept + 1 = 10 then [item]
      else item :: cleanQuestionsGo rest (kept + 1)

def cleanQuestions (raw : List RawQuestion) : List Question :=
  cleanQuestionsGo raw 0

/-- Handler `api_start_quiz_assignment` (app.py 2366-2563) after the Oracle reply is
decoded: validates the questions, fails (`none`, mapped from the
`GenerationFailed` 500 response) when no valid question survives — in which
case `insert_one` is never reached — and otherwise persists the pending quiz
document with `points = number of kept questions` and
`difficulty_level = completed_count + 1`. -/
def api_start_quiz_assignment (raw : List RawQuestion)
    (course_title user_email : String) (completed_count : ℕ) (now : ℕ) :
    Option Assignment :=
  let level : ℤ := completed_count + 1
  let cleaned := cleanQuestions raw
  if cleaned.isEmpty then none
  else
    some { assignment_type := "quiz_mcq"
           title := course_title ++ " - Level " ++ toString level ++ " MCQ Quiz"
           course := course_title
           student_email := user_email
           points := cleaned.length
           status := "pending"
           difficulty_level := level
           question_set := cleaned
           score := none
           rating := none
           feedback := ""
           completed_at := none
           created_at := now }

/-- The stored document after a first submission of `exPendingQuiz` with both
answers correct (score 2, rating 5). -/
def exCompletedQuiz : Assignment :=
  match api_submit_quiz_assignment exPendingQuiz [some 1, some 0] 3 with
  | .ok p => p.1
  | .error _ => exPendingQuiz

/-- C2 counterexample: `api_submit_quiz_assignment` contains no check of the
current `status`, so a second submission against the already-completed
assignment `exCompletedQuiz` is not rejected: it succeeds and silently
overwrites the stored score (2) and rating (5) with the re-scored values
(0 and 0). -/
theorem quiz_resubmission_not_rejected :
    exCompletedQuiz.status = "completed" ∧
    exCompletedQuiz.score = some 2 ∧ exCompletedQuiz.rating = some 5 ∧
    (api_submit_quiz_assignment exCompletedQuiz [none, none] 9).toOption.map
        (fun p => (p.1.status, p.1.score, p.1.rating)) =
      some ("completed", some 0, some 0) := by
  refine ⟨rfl, ?_, ?_, ?_⟩ <;>
    simp [exCompletedQuiz, exPendingQuiz, exQuestions,
      api_submit_quiz_assignment, gradeQuiz, scoreLoop, userAnswerAt,
      clampRating, Except.toOption]

/-- C2 (amended): a second submission against an already-completed MCQ quiz
assignment is not rejected; the handler re-grades the submitted answers and
unconditionally overwrites the stored score, rating, feedback, results and
completion timestamp with the newly computed values. -/
theorem quiz_resubmission_rescored (a : Assignment)
    (answers : List (Option ℤ)) (now : ℕ)
    (hty : a.assignment_type = "quiz_mcq") (hqs : a.question_set ≠ [])
    (_hdone : a.status = "completed") :
    api_submit_quiz_assignment a answers now =
      .ok ({ a with
              score := some (gradeQuiz a.question_set answers).score
              rating := some (gradeQuiz a.question_set answers).rating
              feedback := (gradeQuiz a.question_set answers).feedback
              status := "completed"
              completed_at := some now
              results := some (gradeQuiz a.question_set answers).results },
        gradeQuiz a.question_set answers) := by
  simp only [api_submit_quiz_assignment]
  rw [if_neg (by simp [hty]), if_neg (by simp [hqs])]

/-- Concrete instantiation of `quiz_resubmission_rescored`. -/
theorem quiz_resubmission_rescored_witness :
    api_submit_quiz_assignment exCompletedQuiz [none, some 0] 9 =
      .ok ({ exCompletedQuiz with
              score := some (gradeQuiz exCompletedQuiz.question_set [none, some 0]).score
              rating := some (gradeQuiz exCompletedQuiz.question_set [none, some 0]).rating
              feedback := (gradeQuiz exCompletedQuiz.question_set [none, some 0]).feedback
              status := "completed"
              completed_at := some 9
              results := some (gradeQuiz exCompletedQuiz.question_set [none, some 0]).results },
        gradeQuiz exCompletedQuiz.question_set [none, some 0]) :=
  quiz_resubmission_rescored exCompletedQuiz [none, some 0] 9
    (by decide) (by decide) (by decide)

/-- C3 counterexample: `admin_update_assignment_marks` carries no status
guard, so it sets `score` on the pending assignment `exPendingQuiz` while
the assignment remains pending — refuting "no operation sets any of them on
an assignment that remains pending". -/
theorem pending_assignment_marks_set :
    exPendingQuiz.status = "pending" ∧ exPendingQuiz.score = none ∧
    (admin_update_assignment_marks exPendingQuiz (some 10) none).status =
      "pending" ∧
    (admin_update_assignment_marks exPendingQuiz (some 10) none).score =
      some 10 := by
  decide

/-- Example Oracle question list used by concrete witnesses. -/
def exRawQuestions : List RawQuestion :=
  [⟨some "q", some ["a", "b"], some 1⟩]

/-- The quiz document created from `exRawQuestions`. -/
def exCreatedQuiz : Assignment :=
  (api_start_quiz_assignment exRawQuestions "c" "e" 0 7).getD default

theorem mem_cleanQuestionsGo {q : Question} :
    ∀ (raw : List RawQuestion) (k : ℕ), q ∈ cleanQuestionsGo raw k →
      ∃ rq, cleanOne rq = some q := by
  intro raw
  induction raw with
  | nil => intro k h; simp [cleanQuestionsGo] at h
  | cons r rest ih =>
    intro k h
    simp only [cleanQuestionsGo] at h
    split at h
    next => exact ih _ h
    next item heq =>
      split at h
      next =>
        rw [List.mem_singleton] at h
        subst h
        exact ⟨r, heq⟩
      next =>
        rcases List.mem_cons.mp h with h1 | h2
        · subst h1; exact ⟨r, heq⟩
        · exact ih _ h2

theorem cleanOne_of_few_options (rq : RawQuestion)
    (h : (rq.options.getD []).length < 2) : cleanOne rq = none := by
  simp only [cleanOne]
  rw [if_pos (Or.inr h)]

theorem cleanOne_valid (rq : RawQuestion) (q : Question)
    (h : cleanOne rq = some q) :
    q.options = (rq.options.getD []).take 4 ∧
    2 ≤ q.options.length ∧ q.options.length ≤ 4 ∧
    0 ≤ q.correct_index ∧ q.correct_index < (q.options.length : ℤ) ∧
    ((rq.correct_index = none ∨ rq.correct_index.getD 0 < 0 ∨
        (q.options.length : ℤ) ≤ rq.correct_index.getD 0) →
      q.correct_index = 0) ∧
    ((0 ≤ rq.correct_index.getD 0 ∧
        rq.correct_index.getD 0 < (q.options.length : ℤ)) →
      q.correct_index = rq.correct_index.getD 0) := by
  simp only [cleanOne] at h
  by_cases hc : strip (rq.question.getD "") = "" ∨ (rq.options.getD []).length < 2
  · rw [if_pos hc] at h; cases h
  · rw [if_neg hc] at h
    injection h with h1
    subst h1
    push_neg at hc
    have hlen2 : 2 ≤ (rq.options.getD []).length := by omega
    have htk : ((rq.options.getD []).take 4).length =
        min 4 (rq.options.getD []).length := List.length_take 4 _
    refine ⟨rfl, ?_, ?_, ?_, ?_, ?_, ?_⟩
    · simp only [htk]; omega
    · simp only [htk]; omega
    · dsimp only
      split
      · exact le_refl 0
      · next hcond => push_neg at hcond; exact hcond.1
    · dsimp only
      have hpos : (0 : ℤ) < (((rq.options.getD []).take 4).length : ℤ) := by
        simp only [htk]; exact_mod_cast (by omega : 0 < min 4 (rq.options.getD []).length)
      split
      · exact hpos
      · next hcond => push_neg at hcond; exact hcond.2
    · intro hbad
      dsimp only at hbad ⊢
      rcases hbad with hnone | hneg | hbig
      · rw [hnone]
        simp only [Option.getD_none]
        split <;> rfl
      · rw [if_pos (Or.inl hneg)]
      · rw [if_pos (Or.inr hbig)]
    · intro hval
      dsimp only at hval ⊢
      rw [if_neg (not_or.mpr ⟨not_lt.mpr hval.1, not_le.mpr hval.2⟩)]

/-- C5: quiz-creation validation.  Any Oracle question with fewer than 2
options is discarded; every question the creation loop keeps comes from a
validated Oracle question whose option list is truncated — not discarded —
to its first 4 entries (so every kept question has 2-4 options), whose
missing, non-integer or out-of-bounds correct index is replaced by 0 and
whose in-bounds correct index is kept as is (hence the stored index is
always in bounds); creation returns nothing (the `GenerationFailed` branch,
before any `insert_one`) exactly when no valid question survives; otherwise
the persisted document's point capacity equals the number of kept
questions. -/
theorem quiz_creation_validation (raw : List RawQuestion) (c e : String)
    (cc now : ℕ) :
    (∀ rq : RawQuestion, (rq.options.getD []).length < 2 → cleanOne rq = none) ∧
    (∀ (rq : RawQuestion) (q : Question), cleanOne rq = some q →
      q.options = (rq.options.getD []).take 4 ∧
      2 ≤ q.options.length ∧ q.options.length ≤ 4 ∧
      0 ≤ q.correct_index ∧ q.correct_index < (q.options.length : ℤ) ∧
      ((rq.correct_index = none ∨ rq.correct_index.getD 0 < 0 ∨
          (q.options.length : ℤ) ≤ rq.correct_index.getD 0) →
        q.correct_index = 0) ∧
      ((0 ≤ rq.correct_index.getD 0 ∧
          rq.correct_index.getD 0 < (q.options.length : ℤ)) →
        q.correct_index = rq.correct_index.getD 0)) ∧
    (∀ q ∈ cleanQuestions raw, ∃ rq, cleanOne rq = some q) ∧
    (api_start_quiz_assignment raw c e cc now = none ↔ cleanQuestions raw = []) ∧
    (∀ a, api_start_quiz_assignment raw c e cc now = some a →
      a.points = ((cleanQuestions raw).length : ℤ) ∧
      a.question_set = cleanQuestions raw) := by
  refine ⟨cleanOne_of_few_options, cleanOne_valid, ?_, ?_, ?_⟩
  · intro q hq
    exact mem_cleanQuestionsGo raw 0 hq
  · simp only [api_start_quiz_assignment]
    by_cases h1 : (cleanQuestions raw).isEmpty
    · rw [if_pos h1]
      simp [List.isEmpty_iff.mp h1]
    · rw [if_neg h1]
      constructor
      · intro h; cases h
      · intro h; exact absurd (List.isEmpty_iff.mpr h) h1
  · intro a ha
    simp only [api_start_quiz_assignment] at ha
    by_cases h1 : (cleanQuestions raw).isEmpty
    · rw [if_pos h1] at ha; cases ha
    · rw [if_neg h1] at ha
      injection ha with ha1
      subst ha1
      exact ⟨rfl, rfl⟩

/-- Concrete instantiation of `quiz_creation_validation`: a question with a
single option is discarded; a 5-option question with correct index 9 is
kept with its options truncated to the first 4 and its out-of-bounds index
replaced by 0; a valid index is kept as is; and creation from
`exRawQuestions` keeps one valid question with `points = 1`. -/
theorem quiz_creation_validation_witness :
    cleanOne ⟨some "bad", some ["only"], some 0⟩ = none ∧
    (⟨"big", ["a", "b", "c", "d"], 0⟩ : Question).options =
      (((⟨some "big", some ["a", "b", "c", "d", "e"], some 9⟩ :
        RawQuestion).options.getD []).take 4) ∧
    (⟨"big", ["a", "b", "c", "d"], 0⟩ : Question).correct_index = 0 ∧
    (⟨"q", ["a", "b"], 1⟩ : Question).correct_index =
      ((⟨some "q", some ["a", "b"], some 1⟩ :
        RawQuestion).correct_index.getD 0) ∧
    exCreatedQuiz.points = ((cleanQuestions exRawQuestions).length : ℤ) ∧
    exCreatedQuiz.question_set = cleanQuestions exRawQuestions := by
  have h := quiz_creation_validation exRawQuestions "c" "e" 0 7
  have hbig := h.2.1 ⟨some "big", some ["a", "b", "c", "d", "e"], some 9⟩
    ⟨"big", ["a", "b", "c", "d"], 0⟩ (by decide)
  have hok := h.2.1 ⟨some "q", some ["a", "b"], some 1⟩
    ⟨"q", ["a", "b"], 1⟩ (by decide)
  exact ⟨h.1 _ (by decide), hbig.1,
    hbig.2.2.2.2.2.1 (Or.inr (Or.inr (by decide))),
    hok.2.2.2.2.2.2 (by decide),
    (h.2.2.2.2 exCreatedQuiz (by rfl)).1,
    (h.2.2.2.2 exCreatedQuiz (by rfl)).2⟩

/-- One entry of the `public_questions` payload that the quiz-creation and
quiz-fetch endpoints return (app.py 2543-2550 and 2586-2593): index, text
and options only — the payload has no correct-index field at all. -/
structure PublicQuestion where
  index : ℕ
  question : String
  options : List String
deriving Repr, DecidableEq

def publicQuestions (questions : List Question) : List PublicQuestion :=
  questions.mapIdx fun idx q => ⟨idx, q.question, q.options⟩

/-- One entry of the question list `_build_quiz_mcq_detail` returns
(assignment_detail_service.py 13-48).  `is_correct` is `none` in the
pending branch, which stores Python `None`.  (The best-effort Oracle
`explanation` string of the completed branch is outside the model.) -/
structure DetailQuestion where
  question : String
  options : List String
  correct_index : ℤ
  user_answer : Option ℤ
  is_correct : Option Bool
deriving Repr, DecidableEq

/-- Helper `_build_quiz_mcq_detail` (assignment_detail_service.py 13-48): prefers
stored `results`; for a pending quiz (no results) it builds the payload from
`question_set` — including each question's stored `correct_index`. -/
def build_quiz_mcq_detail (a : Assignment) : List DetailQuestion :=
  let results := a.results.getD []
  if results.isEmpty then
    a.question_set.map fun q =>
      ⟨q.question, q.options, q.correct_index, none, none⟩
  else
    results.map fun r =>
      ⟨r.question, r.options, r.correct_index, r.user_answer, some r.is_correct⟩

/-- C4 (code bug, evaluated at the failing input): for the pending quiz
`exPendingQuiz` the assignment-detail payload contains the stored
correct-option indices `[1, 0]` — `_build_quiz_mcq_detail` copies
`correct_index` into the pre-submission payload, although the two quiz
endpoints' `public_questions` payload (shown last) carries only index,
text and options. -/
theorem quiz_detail_exposes_correct_index :
    exPendingQuiz.status = "pending" ∧ exPendingQuiz.results = none ∧
    (build_quiz_mcq_detail exPendingQuiz).map (fun d => d.correct_index) =
      [1, 0] ∧
    exPendingQuiz.question_set.map (fun q => q.correct_index) = [1, 0] ∧
    publicQuestions exPendingQuiz.question_set =
      [⟨0, "2+2", ["3", "4"]⟩, ⟨1, "1+1", ["2", "3"]⟩] := by
  decide

/-- Count of completed MCQ quizzes of one student in one course, as queried
by `count_documents` in `api_start_quiz_assignment` (app.py 2395-2400). -/
def completedQuizCount (s : List Assignment) (course email : String) : ℕ :=
  s.countP fun a => decide (a.course = course ∧ a.student_email = email ∧
    a.assignment_type = "quiz_mcq" ∧ a.status = "completed")

/-- The operations of the modelled core that touch assignment documents:
quiz creation (level derived from the current completed count), quiz
submission, and the admin mark update. -/
inductive Op where
  | start (raw : List RawQuestion) (course email : String) (now : ℕ)
  | submit (idx : ℕ) (answers : List (Option ℤ)) (now : ℕ)
  | adminMarks (idx : ℕ) (score_raw rating_raw : Option ℚ)

/-- Effect of one operation on the `assignments` collection (modelled as a
list; `insert_one` appends, `update_one` replaces in place). -/
def applyOp (s : List Assignment) : Op → List Assignment
  | .start raw course email now =>
    match api_start_quiz_assignment raw course email
        (completedQuizCount s course email) now with
    | some a => s ++ [a]
    | none => s
  | .submit idx answers now =>
    match s[idx]? with
    | some a =>
      match api_submit_quiz_assignment a answers now with
      | .ok p => s.set idx p.1
      | .error _ => s
    | none => s
  | .adminMarks idx score_raw rating_raw =>
    match s[idx]? with
    | some a => s.set idx (admin_update_assignment_marks a score_raw rating_raw)
    | none => s

def applyOps (s : List Assignment) : List Op → List Assignment
  | [] => s
  | op :: ops => applyOps (applyOp s op) ops

theorem countP_le_countP_set {α : Type} (p : α → Bool) (l : List α) (i : ℕ)
    (b : α) (h : ∀ a, l[i]? = some a → p a = true → p b = true) :
    l.countP p ≤ (l.set i b).countP p := by
  induction l generalizing i with
  | nil => simp
  | cons x xs ih =>
    cases i with
    | zero =>
      rw [List.set_cons_zero, List.countP_cons, List.countP_cons]
      by_cases hx : p x = true
      · have hb := h x (by rw [List.getElem?_cons_zero]) hx
        rw [hx, hb]
      · have hx' : p x = false := by simpa using hx
        rw [hx', if_neg (show ¬(false = true) by simp)]
        split <;> omega
    | succ n =>
      rw [List.set_cons_succ, List.countP_cons, List.countP_cons]
      have hx := ih n
        (fun a ha hp => h a (by rw [List.getElem?_cons_succ]; exact ha) hp)
      omega

theorem submit_preserves_identity (a a' : Assignment) (g : QuizGrade)
    (answers : List (Option ℤ)) (now : ℕ)
    (h : api_submit_quiz_assignment a answers now = .ok (a', g)) :
    a'.course = a.course ∧ a'.student_email = a.student_email ∧
    a'.assignment_type = a.assignment_type ∧ a'.status = "completed" := by
  simp only [api_submit_quiz_assignment] at h
  by_cases h1 : a.assignment_type ≠ "quiz_mcq"
  · rw [if_pos h1] at h; cases h
  · rw [if_neg h1] at h
    by_cases h2 : a.question_set.isEmpty
    · rw [if_pos h2] at h; cases h
    · rw [if_neg h2] at h
      injection h with h3
      injection h3 with h4 h5
      subst h4
      exact ⟨rfl, rfl, rfl, rfl⟩

theorem start_level (raw : List RawQuestion) (c e : String) (cc now : ℕ)
    (a : Assignment)
    (h : api_start_quiz_assignment raw c e cc now = some a) :
    a.difficulty_level = (cc : ℤ) + 1 := by
  simp only [api_start_quiz_assignment] at h
  by_cases h1 : (cleanQuestions raw).isEmpty
  · rw [if_pos h1] at h; cases h
  · rw [if_neg h1] at h
    injection h with h2
    subst h2
    rfl

theorem completedQuizCount_mono_applyOp (s : List Assignment) (op : Op)
    (course email : String) :
    completedQuizCount s course email ≤
      completedQuizCount (applyOp s op) course email := by
  cases op with
  | start raw c e now =>
    simp only [applyOp]
    split
    next a ha =>
      simp only [completedQuizCount, List.countP_append]
      omega
    next => exact le_refl _
  | submit idx answers now =>
    simp only [applyOp, completedQuizCount]
    split
    next a hg =>
      split
      next p hs =>
        apply countP_le_countP_set
        intro x hx hp
        rw [hg] at hx
        injection hx with hx1
        subst hx1
        obtain ⟨hc, he, ht, hd⟩ :=
          submit_preserves_identity a p.1 p.2 answers now (by rw [hs])
        simp only [decide_eq_true_eq] at hp ⊢
        exact ⟨hc.trans hp.1, he.trans hp.2.1, ht.trans hp.2.2.1, hd⟩
      next err hs => exact le_refl _
    next hg => exact le_refl _
  | adminMarks idx score_raw rating_raw =>
    simp only [applyOp, completedQuizCount]
    split
    next a hg =>
      apply countP_le_countP_set
      intro x hx hp
      rw [hg] at hx
      injection hx with hx1
      subst hx1
      exact hp
    next hg => exact le_refl _

theorem completedQuizCount_mono (s : List Assignment) (ops : List Op)
    (course email : String) :
    completedQuizCount s course email ≤
      completedQuizCount (applyOps s ops) course email := by
  induction ops generalizing s with
  | nil => exact le_refl _
  | cons op ops ih =>
    exact le_trans (completedQuizCount_mono_applyOp s op course email)
      (ih (applyOp s op))

/-- C6: a quiz created for a (student, course) pair carries difficulty
level `completedQuizCount + 1`, and since no modelled operation (creation,
submission, admin mark update) ever decreases the completed-quiz count, a
quiz generated later — after any sequence of operations — has a level at
least as large as one generated earlier. -/
theorem quiz_level_rule (s : List Assignment) (ops : List Op)
    (raw raw2 : List RawQuestion) (course email : String) (now now2 : ℕ)
    (a b : Assignment)
    (ha : api_start_quiz_assignment raw course email
        (completedQuizCount s course email) now = some a)
    (hb : api_start_quiz_assignment raw2 course email
        (completedQuizCount (applyOps s ops) course email) now2 = some b) :
    a.difficulty_level = (completedQuizCount s course email : ℤ) + 1 ∧
    b.difficulty_level =
      (completedQuizCount (applyOps s ops) course email : ℤ) + 1 ∧
    a.difficulty_level ≤ b.difficulty_level := by
  have h1 := start_level _ _ _ _ _ _ ha
  have h2 := start_level _ _ _ _ _ _ hb
  refine ⟨h1, h2, ?_⟩
  rw [h1, h2]
  have := completedQuizCount_mono s ops course email
  omega

/-- The example trace used by the C6 witness: submit the pending quiz. -/
def exOps : List Op := [.submit 0 [some 1, some 0] 8]

/-- Quiz generated before the example trace (completed count 0). -/
def exQuizBefore : Assignment :=
  (api_start_quiz_assignment exRawQuestions "Algebra" "s@example.com"
    (completedQuizCount [exPendingQuiz] "Algebra" "s@example.com") 7).getD default

/-- Quiz generated after the example trace (completed count 1). -/
def exQuizAfter : Assignment :=
  (api_start_quiz_assignment exRawQuestions "Algebra" "s@example.com"
    (completedQuizCount (applyOps [exPendingQuiz] exOps) "Algebra"
      "s@example.com") 9).getD default

/-- Concrete instantiation of `quiz_level_rule`. -/
theorem quiz_level_rule_witness :
    exQuizBefore.difficulty_level =
      (completedQuizCount [exPendingQuiz] "Algebra" "s@example.com" : ℤ) + 1 ∧
    exQuizAfter.difficulty_level =
      (completedQuizCount (applyOps [exPendingQuiz] exOps) "Algebra"
        "s@example.com" : ℤ) + 1 ∧
    exQuizBefore.difficulty_level ≤ exQuizAfter.difficulty_level :=
  quiz_level_rule [exPendingQuiz] exOps exRawQuestions exRawQuestions
    "Algebra" "s@example.com" 7 9 exQuizBefore exQuizAfter (by rfl) (by rfl)

/-- The grading JSON decoded from the Oracle's reply in
`api_submit_assignment`: each key may be missing (`grading.get` defaults). -/
structure Grading where
  score : Option ℚ := none
  rating : Option ℚ := none
  feedback : Option String := none
  next_difficulty_level : Option ℤ := none
deriving Repr, DecidableEq, Inhabited

/-- Final grading outcome of a free-text submission. -/
structure TextGrade where
  score : ℚ
  rating : ℚ
  feedback : String
  next_difficulty_level : ℤ
deriving Repr, DecidableEq

/-- Two sequential clamps over ℚ, as written in `api_submit_assignment`
(app.py 2301-2312): `if x < lo: x = lo` then `if x > hi: x = hi`. -/
def clamp2 (lo hi x : ℚ) : ℚ :=
  let x1 := if x < lo then lo else x
  if hi < x1 then hi else x1

/-- The same two sequential clamps over ℤ (app.py 2315-2319). -/
def clamp2Int (lo hi x : ℤ) : ℤ :=
  let x1 := if x < lo then lo else x
  if hi < x1 then hi else x1

/-- The heuristic fallback grading used when the Oracle reply is not JSON
(app.py 2291-2299): full marks for answers longer than 20 characters,
integer half marks (`max_points // 2`, floor division) otherwise. -/
def fallback_grading (student_answer : String)
    (max_points difficulty_level : ℤ) : Grading :=
  { score := some (if 20 < student_answer.length then (max_points : ℚ)
      else ((max_points.fdiv 2 : ℤ) : ℚ))
    rating := some (if 20 < student_answer.length then 5 else 3)
    feedback := some "Automatic fallback grading applied due to parsing error."
    next_difficulty_level := some (difficulty_level + 1) }

/-- The free-text grading step of `api_submit_assignment` (app.py
2287-2319): `oracle = none` models a `json.JSONDecodeError` on the raw
Oracle reply, which triggers the fallback; every numeric output is then
clamped (score to `[0, max_points]`, rating to `[0, 5]`, next difficulty
level to `[1, 5]`). -/
def gradeFreeText (oracle : Option Grading) (student_answer : String)
    (max_points difficulty_level : ℤ) : TextGrade :=
  let grading := match oracle with
    | some g => g
    | none => fallback_grading student_answer max_points difficulty_level
  { score := clamp2 0 (max_points : ℚ) (grading.score.getD 0)
    rating := clamp2 0 5 (grading.rating.getD 0)
    feedback := grading.feedback.getD ""
    next_difficulty_level :=
      clamp2Int 1 5 (grading.next_difficulty_level.getD difficulty_level) }

theorem clamp2_bounds (lo hi x : ℚ) (h : lo ≤ hi) :
    lo ≤ clamp2 lo hi x ∧ clamp2 lo hi x ≤ hi := by
  simp only [clamp2]
  by_cases h1 : x < lo
  · rw [if_pos h1, if_neg (not_lt.mpr h)]
    exact ⟨le_refl lo, h⟩
  · rw [if_neg h1]
    push_neg at h1
    by_cases h2 : hi < x
    · rw [if_pos h2]
      exact ⟨h, le_refl hi⟩
    · rw [if_neg h2]
      exact ⟨h1, not_lt.mp h2⟩

theorem clamp2_eq_self (lo hi x : ℚ) (h1 : lo ≤ x) (h2 : x ≤ hi) :
    clamp2 lo hi x = x := by
  simp only [clamp2]
  rw [if_neg (not_lt.mpr h1), if_neg (not_lt.mpr h2)]

theorem clamp2Int_bounds (lo hi x : ℤ) (h : lo ≤ hi) :
    lo ≤ clamp2Int lo hi x ∧ clamp2Int lo hi x ≤ hi := by
  simp only [clamp2Int]
  by_cases h1 : x < lo
  · rw [if_pos h1, if_neg (not_lt.mpr h)]
    exact ⟨le_refl lo, h⟩
  · rw [if_neg h1]
    push_neg at h1
    by_cases h2 : hi < x
    · rw [if_pos h2]
      exact ⟨h, le_refl hi⟩
    · rw [if_neg h2]
      exact ⟨h1, not_lt.mp h2⟩

/-- C7 counterexample: with an unparseable Oracle reply, an answer of at
most 20 characters and `max_points = 101`, the code's fallback score is the
floor division `101 // 2 = 50`, not `101 / 2 = 50.5` — "score =
maxPoints/2" fails for odd point capacities. -/
theorem freetext_fallback_not_half :
    (gradeFreeText none "short" 101 1).score = 50 ∧ (50 : ℚ) ≠ 101 / 2 := by
  constructor
  · simp only [gradeFreeText, fallback_grading]
    rw [if_neg (by decide : ¬ 20 < ("short").length)]
    have hfd : (101 : ℤ).fdiv 2 = 50 := by decide
    rw [hfd]
    simp only [Option.getD_some]
    norm_num [clamp2]
  · norm_num

/-- C7 (amended): on Oracle parse failure the fallback yields
`score = maxPoints` for answers longer than 20 characters and
`score = maxPoints // 2` (floor division) otherwise, with rating 5 or 3
respectively and a feedback string stating the fallback was used; and for
every free-text grading (oracle or fallback) the returned score lies in
`[0, maxPoints]`, the rating in `[0, 5]` and the next difficulty level in
`[1, 5]`. -/
theorem freetext_fallback_and_clamp (oracle : Option Grading) (ans : String)
    (mp dl : ℤ) (hmp : 0 ≤ mp) :
    ((gradeFreeText none ans mp dl).score =
        (if 20 < ans.length then (mp : ℚ) else ((mp.fdiv 2 : ℤ) : ℚ)) ∧
      (gradeFreeText none ans mp dl).rating =
        (if 20 < ans.length then 5 else 3) ∧
      (gradeFreeText none ans mp dl).feedback =
        "Automatic fallback grading applied due to parsing error.") ∧
    (0 ≤ (gradeFreeText oracle ans mp dl).score ∧
      (gradeFreeText oracle ans mp dl).score ≤ (mp : ℚ) ∧
      0 ≤ (gradeFreeText oracle ans mp dl).rating ∧
      (gradeFreeText oracle ans mp dl).rating ≤ 5 ∧
      1 ≤ (gradeFreeText oracle ans mp dl).next_difficulty_level ∧
      (gradeFreeText oracle ans mp dl).next_difficulty_level ≤ 5) := by
  have hmpq : (0 : ℚ) ≤ (mp : ℚ) := by exact_mod_cast hmp
  constructor
  · simp only [gradeFreeText, fallback_grading, Option.getD_some]
    by_cases hl : 20 < ans.length
    · simp only [if_pos hl]
      refine ⟨?_, ?_, trivial⟩
      · exact clamp2_eq_self 0 (mp : ℚ) (mp : ℚ) hmpq (le_refl _)
      · exact clamp2_eq_self 0 5 5 (by norm_num) (le_refl _)
    · simp only [if_neg hl]
      refine ⟨?_, ?_, trivial⟩
      · have h0 : (0 : ℤ) ≤ mp.fdiv 2 := Int.fdiv_nonneg hmp (by norm_num)
        have h1 : mp.fdiv 2 ≤ mp := by
          rw [Int.fdiv_eq_ediv _ (by norm_num : (0 : ℤ) ≤ 2)]
          exact Int.ediv_le_self 2 hmp
        exact clamp2_eq_self 0 (mp : ℚ) _ (by exact_mod_cast h0)
          (by exact_mod_cast h1)
      · exact clamp2_eq_self 0 5 3 (by norm_num) (by norm_num)
  · obtain ⟨hs1, hs2⟩ := clamp2_bounds 0 (mp : ℚ)
      ((match oracle with
        | some g => g
        | none => fallback_grading ans mp dl).score.getD 0) hmpq
    obtain ⟨hr1, hr2⟩ := clamp2_bounds 0 5
      ((match oracle with
        | some g => g
        | none => fallback_grading ans mp dl).rating.getD 0) (by norm_num)
    obtain ⟨hn1, hn2⟩ := clamp2Int_bounds 1 5
      ((match oracle with
        | some g => g
        | none => fallback_grading ans mp dl).next_difficulty_level.getD dl)
      (by norm_num)
    exact ⟨hs1, hs2, hr1, hr2, hn1, hn2⟩

/-- Concrete instantiation of `freetext_fallback_and_clamp`: unparseable
Oracle output, a 25-character answer and `maxPoints = 100` yield the
fallback `score = 100`, `rating = 5`. -/
theorem freetext_fallback_and_clamp_witness :
    (gradeFreeText none "abcdefghijklmnopqrstuvwxy" 100 1).score = 100 ∧
    (gradeFreeText none "abcdefghijklmnopqrstuvwxy" 100 1).rating = 5 := by
  have h := freetext_fallback_and_clamp none "abcdefghijklmnopqrstuvwxy" 100 1
    (by norm_num)
  have hlen : 20 < ("abcdefghijklmnopqrstuvwxy").length := by decide
  constructor
  · rw [h.1.1, if_pos hlen]
    norm_num
  · rw [h.1.2.1, if_pos hlen]

/-- A report document, with the fields `admin_resolve_report` reads or
writes.  `question_index` is `none` when the key is absent or not an
integer (`isinstance(question_index, int)` fails). -/
structure Report where
  type : String := "assignment"
  question_index : Option ℤ := none
  status : String := "open"
  resolved_at : Option ℕ := none
deriving Repr, DecidableEq, Inhabited

/-- Embeds `results[question_index]['is_correct'] = True` (app.py 2155): force the
disputed question's correctness to true, leaving every other entry
untouched. -/
def grantCredit (results : List QuizResult) (qi : ℤ) : List QuizResult :=
  results.mapIdx fun j x =>
    if (j : ℤ) = qi then { x with is_correct := true } else x

/-- Route `admin_resolve_report` (app.py 2092-2195): if the resolver supplied a
parsed score and/or rating, they are written onto the assignment directly;
otherwise, for a question-scoped report on an MCQ quiz with an in-bounds
integer question index, the disputed question is credited and score/rating
are recomputed from the updated results (with the clamp order of app.py
2163-2166: first `> 5`, then `< 0`); in every case the report is marked
resolved with a timestamp. -/
def admin_resolve_report (r : Report) (a : Assignment)
    (score_raw rating_raw : Option ℚ) (now : ℕ) : Report × Assignment :=
  let a' :=
    if score_raw.isSome ∨ rating_raw.isSome then
      { a with
          score := match score_raw with | some s => some s | none => a.score
          rating := match rating_raw with | some v => some v | none => a.rating }
    else if r.type = "question" ∧ a.assignment_type = "quiz_mcq" then
      match r.question_index with
      | some qi =>
        let results := a.results.getD []
        if 0 ≤ qi ∧ qi < (results.length : ℤ) then
          let results2 := grantCredit results qi
          let correct_count := results2.countP fun x => x.is_correct
          let num_questions := if results.length = 0 then 1 else results.length
          let new_score : ℚ := correct_count
          let r1 := (new_score / (num_questions : ℚ)) * 5
          let r2 := if 5 < r1 then 5 else r1
          let new_rating := if r2 < 0 then 0 else r2
          { a with
              score := some new_score
              rating := some new_rating
              results := some results2 }
        else a
      | none => a
    else a
  ({ r with status := "resolved", resolved_at := some now }, a')

/-- C8: resolving a question-scoped report on an MCQ quiz with stored
results and no manual override forces the disputed question's correctness
to true, recomputes the score as the number of correct results and the
rating as `5 * score / numQuestions` (which lies in `[0, 5]`, so the clamp
leaves it unchanged), and marks the report resolved with a timestamp. -/
theorem resolve_report_auto_credit (r : Report) (a : Assignment) (qi : ℤ)
    (now : ℕ)
    (hq : r.type = "question") (hqz : a.assignment_type = "quiz_mcq")
    (hqi : r.question_index = some qi)
    (h0 : 0 ≤ qi) (hlt : qi < ((a.results.getD []).length : ℤ)) :
    (admin_resolve_report r a none none now).2.results =
      some (grantCredit (a.results.getD []) qi) ∧
    (admin_resolve_report r a none none now).2.score =
      some (((grantCredit (a.results.getD []) qi).countP
        (fun x => x.is_correct) : ℚ)) ∧
    (admin_resolve_report r a none none now).2.rating =
      some (5 * ((grantCredit (a.results.getD []) qi).countP
          (fun x => x.is_correct) : ℚ) / ((a.results.getD []).length : ℚ)) ∧
    (∀ v, (admin_resolve_report r a none none now).2.rating = some v →
      0 ≤ v ∧ v ≤ 5) ∧
    (admin_resolve_report r a none none now).1.status = "resolved" ∧
    (admin_resolve_report r a none none now).1.resolved_at = some now := by
  have hlen : 0 < (a.results.getD []).length := by omega
  have hcc : (grantCredit (a.results.getD []) qi).countP (fun x => x.is_correct) ≤
      (a.results.getD []).length := by
    calc (grantCredit (a.results.getD []) qi).countP (fun x => x.is_correct) ≤
        (grantCredit (a.results.getD []) qi).length := List.countP_le_length _
      _ = (a.results.getD []).length := by
        simp [grantCredit]
  have hlenq : (0 : ℚ) < ((a.results.getD []).length : ℚ) := by exact_mod_cast hlen
  have hr1 : (0 : ℚ) ≤
      (((grantCredit (a.results.getD []) qi).countP (fun x => x.is_correct) : ℚ) /
        ((a.results.getD []).length : ℚ)) * 5 := by positivity
  have hr2 : (((grantCredit (a.results.getD []) qi).countP
        (fun x => x.is_correct) : ℚ) /
        ((a.results.getD []).length : ℚ)) * 5 ≤ 5 := by
    rw [div_mul_eq_mul_div, div_le_iff₀ hlenq]
    have : (((grantCredit (a.results.getD []) qi).countP
        (fun x => x.is_correct) : ℚ)) ≤ ((a.results.getD []).length : ℚ) := by
      exact_mod_cast hcc
    nlinarith
  have hnum : ¬((a.results.getD []).length = 0) := by omega
  simp only [admin_resolve_report, hqi]
  rw [if_neg (by simp), if_pos ⟨hq, hqz⟩, if_pos ⟨h0, hlt⟩, if_neg hnum,
    if_neg (not_lt.mpr hr2), if_neg (not_lt.mpr hr1)]
  refine ⟨by trivial, by trivial, ?_, ?_, by trivial, by trivial⟩
  · ring_nf
  · intro v hv
    injection hv with hv1
    subst hv1
    exact ⟨hr1, hr2⟩

/-- Graded example quiz with per-question results `[incorrect, correct,
incorrect]`. -/
def exGradedQuiz : Assignment :=
  { assignment_type := "quiz_mcq", course := "Algebra",
    student_email := "s@example.com", points := 3, status := "completed",
    results := some
      [⟨"a", ["x", "y"], 0, some 1, false⟩,
       ⟨"b", ["x", "y"], 1, some 1, true⟩,
       ⟨"c", ["x", "y"], 0, some 1, false⟩],
    score := some 1, rating := some (5 / 3) }

/-- Question-scoped report on question 0 of the example quiz. -/
def exReport : Report :=
  { type := "question", question_index := some 0 }

/-- Concrete instantiation of `resolve_report_auto_credit`: results become
`[correct, correct, incorrect]`, score 2, rating 10/3, report resolved. -/
theorem resolve_report_auto_credit_witness :
    (admin_resolve_report exReport exGradedQuiz none none 11).2.score =
      some 2 ∧
    (admin_resolve_report exReport exGradedQuiz none none 11).2.rating =
      some (10 / 3) ∧
    ((admin_resolve_report exReport exGradedQuiz none none 11).2.results.getD
        []).map (fun x => x.is_correct) = [true, true, false] ∧
    (admin_resolve_report exReport exGradedQuiz none none 11).1.status =
      "resolved" ∧
    (admin_resolve_report exReport exGradedQuiz none none 11).1.resolved_at =
      some 11 := by
  have h := resolve_report_auto_credit exReport exGradedQuiz 0 11
    rfl rfl rfl (by decide) (by decide)
  have hcount : (grantCredit (exGradedQuiz.results.getD []) 0).countP
      (fun x => x.is_correct) = 2 := by decide
  refine ⟨?_, ?_, ?_, h.2.2.2.2.1, h.2.2.2.2.2⟩
  · rw [h.2.1, hcount]
    norm_num
  · rw [h.2.2.1, hcount]
    norm_num
    rfl
  · rw [h.1]
    decide

/-- One document of the `game_scores` collection (a `GameScoreEvent`):
append-only, one per finished round. -/
structure GameScoreEvent where
  game_type : String
  student_email : String
  student_name : String
  score : ℚ
deriving Repr, DecidableEq, Inhabited

/-- One aggregated leaderboard row as built by `build_game_leaderboard`
(app.py 556-589).  The display-name lookup (best-effort, from a sample
score document or the users collection) carries no scoring information and
is outside the model. -/
structure LeaderboardRow where
  email : String
  total_score : ℚ
  games : ℕ
deriving Repr, DecidableEq, Inhabited

/-- Grouping keys in first-appearance order (the model of Mongo's `$group`
key set over the matching events). -/
def dedupFirst : List String → List String
  | [] => []
  | x :: xs => x :: (dedupFirst xs).filter (fun y => y ≠ x)

/-- Total score of one student for one game type: the sum of `score` over
all events matching both. -/
def sumScores (events : List GameScoreEvent) (g email : String) : ℚ :=
  ((events.filter fun e =>
      decide (e.game_type = g ∧ e.student_email = email)).map
    fun e => e.score).sum

/-- Insert a row into a descending-by-total list, after any earlier row of
equal total (a stable refinement of Mongo's `$sort {total_score: -1}`,
which fixes no tie order). -/
def insertRowDesc (x : LeaderboardRow) :
    List LeaderboardRow → List LeaderboardRow
  | [] => [x]
  | y :: ys =>
    if y.total_score < x.total_score then x :: y :: ys
    else y :: insertRowDesc x ys

def insertionSortDesc : List LeaderboardRow → List LeaderboardRow
  | [] => []
  | x :: xs => insertRowDesc x (insertionSortDesc xs)

/-- Function `build_game_leaderboard` (app.py 556-589): the aggregation pipeline
`$match game_type → $group by student_email (sum score, count) → $sort by
total_score descending → $limit 5`. -/
def build_game_leaderboard (events : List GameScoreEvent) (g : String) :
    List LeaderboardRow :=
  let matching := events.filter fun e => decide (e.game_type = g)
  let keys := dedupFirst (matching.map fun e => e.student_email)
  let rows := keys.map fun k =>
    { email := k
      total_score := ((matching.filter fun e =>
          decide (e.student_email = k)).map fun e => e.score).sum
      games := (matching.filter fun e => decide (e.student_email = k)).length }
  (insertionSortDesc rows).take 5

/-- Row order used by the leaderboard: descending total score. -/
def rowGE (p q : LeaderboardRow) : Prop := q.total_score ≤ p.total_score

theorem mem_insertRowDesc {z x : LeaderboardRow} (l : List LeaderboardRow) :
    z ∈ insertRowDesc x l ↔ z = x ∨ z ∈ l := by
  induction l with
  | nil => simp [insertRowDesc]
  | cons y ys ih =>
    simp only [insertRowDesc]
    split
    · simp only [List.mem_cons]
    · simp only [List.mem_cons, ih]
      tauto

theorem sorted_insertRowDesc (x : LeaderboardRow) (l : List LeaderboardRow)
    (h : List.Sorted rowGE l) : List.Sorted rowGE (insertRowDesc x l) := by
  induction l with
  | nil => simp [insertRowDesc, List.sorted_singleton]
  | cons y ys ih =>
    rw [List.sorted_cons] at h
    obtain ⟨hy, hys⟩ := h
    simp only [insertRowDesc]
    split
    next hlt =>
      rw [List.sorted_cons]
      refine ⟨?_, ?_⟩
      · intro b hb
        rcases List.mem_cons.mp hb with rfl | hb
        · exact le_of_lt hlt
        · exact le_trans (hy b hb) (le_of_lt hlt)
      · rw [List.sorted_cons]
        exact ⟨hy, hys⟩
    next hge =>
      rw [List.sorted_cons]
      refine ⟨?_, ih hys⟩
      intro b hb
      rcases (mem_insertRowDesc ys).mp hb with rfl | hb
      · exact not_lt.mp hge
      · exact hy b hb

theorem mem_insertionSortDesc {z : LeaderboardRow} :
    ∀ l : List LeaderboardRow, z ∈ insertionSortDesc l ↔ z ∈ l := by
  intro l
  induction l with
  | nil => simp [insertionSortDesc]
  | cons x xs ih =>
    simp only [insertionSortDesc, mem_insertRowDesc, List.mem_cons, ih]

theorem sorted_insertionSortDesc :
    ∀ l : List LeaderboardRow, List.Sorted rowGE (insertionSortDesc l)
  | [] => by simp [insertionSortDesc]
  | x :: xs => sorted_insertRowDesc x _ (sorted_insertionSortDesc xs)

theorem filter_game_then_email (events : List GameScoreEvent) (g k : String) :
    (events.filter fun e => decide (e.game_type = g)).filter
        (fun e => decide (e.student_email = k)) =
      events.filter fun e => decide (e.game_type = g ∧ e.student_email = k) := by
  induction events with
  | nil => rfl
  | cons e es ih =>
    by_cases h1 : e.game_type = g <;> by_cases h2 : e.student_email = k <;>
      simp [List.filter_cons, h1, h2, ih]

/-- C9: for every game type and collection of score events, the leaderboard
has at most 5 rows, is sorted descending by total score, and each row's
total equals the sum of the scores of all events of that student and game
type. -/
theorem leaderboard_top5 (events : List GameScoreEvent) (g : String) :
    (build_game_leaderboard events g).length ≤ 5 ∧
    List.Sorted rowGE (build_game_leaderboard events g) ∧
    ∀ row ∈ build_game_leaderboard events g,
      row.total_score = sumScores events g row.email := by
  refine ⟨List.length_take_le 5 _, ?_, ?_⟩
  · exact List.Pairwise.sublist (List.take_sublist 5 _)
      (sorted_insertionSortDesc _)
  · intro row hrow
    have h1 : row ∈ insertionSortDesc _ :=
      (List.take_sublist 5 _).subset hrow
    have h2 := (mem_insertionSortDesc _).mp h1
    obtain ⟨k, hk, hfk⟩ := List.mem_map.mp h2
    subst hfk
    show ((List.filter _ (List.filter _ events)).map _).sum = _
    rw [filter_game_then_email]
    rfl

/-- Example score events for the leaderboard witness. -/
def exEvents : List GameScoreEvent :=
  [⟨"tictactoe", "a@x", "A", 3⟩, ⟨"crossword", "a@x", "A", 12⟩,
   ⟨"tictactoe", "b@x", "B", 1⟩]

/-- Concrete instantiation of `leaderboard_top5`. -/
theorem leaderboard_top5_witness :
    (build_game_leaderboard exEvents "tictactoe").length ≤ 5 ∧
    (⟨"a@x", (3 : ℚ), 1⟩ : LeaderboardRow).total_score =
      sumScores exEvents "tictactoe" "a@x" := by
  have h := leaderboard_top5 exEvents "tictactoe"
  refine ⟨h.1, ?_⟩
  have hmem : (⟨"a@x", (3 : ℚ), 1⟩ : LeaderboardRow) ∈
      build_game_leaderboard exEvents "tictactoe" := by
    simp [build_game_leaderboard, dedupFirst, insertionSortDesc,
      insertRowDesc, exEvents]
  exact h.2.2 _ hmem

/-- The ratings the aggregation pipeline of `api_submit_assignment`
averages (app.py 2336-2339): `$match {course: title, rating: {$ne: None}}`
— every assignment of the course with a non-null rating, with NO filter on
`status`. -/
def courseRatings (assignments : List Assignment) (course : String) : List ℚ :=
  assignments.filterMap fun a => if a.course = course then a.rating else none

/-- The course-rating recomputation of `api_submit_assignment` (app.py
2333-2348): `$avg` of the matched ratings; `none` models an empty `agg`
result, in which case the course document is not updated. -/
def courseAvgRating (assignments : List Assignment) (course : String) :
    Option ℚ :=
  let ratings := courseRatings assignments course
  if ratings.isEmpty then none
  else some (ratings.sum / (ratings.length : ℚ))

/-- Modelled from the spec: the mean C10 claims — the arithmetic mean of
`rating` over all COMPLETED assignments referencing the course, excluding
null ratings.  Kept for comparison with `courseAvgRating`, the pipeline the
code runs. -/
def courseAvgRatingClaimed (assignments : List Assignment) (course : String) :
    Option ℚ :=
  let ratings := assignments.filterMap fun a =>
    if a.course = course ∧ a.status = "completed" then a.rating else none
  if ratings.isEmpty then none
  else some (ratings.sum / (ratings.length : ℚ))

/-- Handler `api_submit_assignment` (app.py 2198-2331) up to the assignment update:
rejects an empty (stripped) answer, binds the student on first submission,
grades through `gradeFreeText`, and writes answer, score, rating, feedback,
`status = completed` and the completion timestamp in one update. -/
def api_submit_assignment (a : Assignment) (raw_answer : String)
    (oracle : Option Grading) (session_email : String) (now : ℕ) :
    Except ApiError (Assignment × TextGrade) :=
  let student_answer := strip raw_answer
  if student_answer = "" then .error .validationError
  else
    let a1 := if a.student_email = "" then
        { a with student_email := session_email } else a
    let g := gradeFreeText oracle student_answer a1.points a1.difficulty_level
    .ok ({ a1 with
            student_answer := some student_answer
            score := some g.score
            rating := some g.rating
            feedback := g.feedback
            status := "completed"
            completed_at := some now }, g)

/-- The whole submission endpoint over the collection, including the
best-effort course-rating recomputation (app.py 2333-2348):
`recompute_ok = false` models the `except Exception` branch that logs and
moves on — the submission outcome is unaffected. -/
def api_submit_assignment_endpoint (s : List Assignment) (idx : ℕ)
    (raw_answer : String) (oracle : Option Grading) (session_email : String)
    (now : ℕ) (recompute_ok : Bool) (course_rating : Option ℚ) :
    List Assignment × Option ℚ × Except ApiError TextGrade :=
  match s[idx]? with
  | none => (s, course_rating, .error .notFound)
  | some a =>
    match api_submit_assignment a raw_answer oracle session_email now with
    | .error e => (s, course_rating, .error e)
    | .ok (a', g) =>
      let s' := s.set idx a'
      let course_rating' :=
        if a'.course ≠ "" ∧ recompute_ok then
          match courseAvgRating s' a'.course with
          | some v => some v
          | none => course_rating
        else course_rating
      (s', course_rating', .ok g)

/-- A completed, rated text assignment in course "Calculus". -/
def exCompletedRated : Assignment :=
  { assignment_type := "text", course := "Calculus",
    student_email := "s@example.com", status := "completed",
    score := some 90, rating := some 5, feedback := "ok",
    completed_at := some 4 }

/-- A PENDING assignment in course "Calculus" that carries a rating,
obtained through the admin mark-update route (which has no status guard). -/
def exPendingRated : Assignment :=
  admin_update_assignment_marks
    { exPendingQuiz with course := "Calculus" } none (some 1)

/-- C10 counterexample: with a completed assignment rated 5 and a pending
assignment rated 1 (reachable via `admin_update_assignment_marks`) in the
same course, the pipeline recomputes the course rating as 3 — the mean over
ALL rated assignments — while the mean over completed assignments alone
is 5. -/
theorem course_rating_includes_pending :
    exPendingRated.status = "pending" ∧ exPendingRated.rating = some 1 ∧
    courseAvgRating [exCompletedRated, exPendingRated] "Calculus" = some 3 ∧
    courseAvgRatingClaimed [exCompletedRated, exPendingRated] "Calculus" =
      some 5 := by
  refine ⟨rfl, rfl, ?_, ?_⟩
  · norm_num [courseAvgRating, courseRatings, exCompletedRated,
      exPendingRated, admin_update_assignment_marks, exPendingQuiz,
      List.filterMap_cons]
  · simp only [courseAvgRatingClaimed, exCompletedRated, exPendingRated,
      admin_update_assignment_marks, exPendingQuiz, List.filterMap_cons,
      List.filterMap_nil]
    rw [show (if True ∧ ("pending" = "completed") then some (1 : ℚ) else none)
        = none from if_neg (fun hcon => absurd hcon.2 (by decide))]
    norm_num

/-- C10 (amended): after a successful free-text submission the stored
collection and the submission response are independent of whether the
best-effort course-rating recomputation succeeds; and when it does succeed
(and some rating-bearing assignment of the course exists) the course rating
becomes the arithmetic mean of `rating` over all assignments referencing
the course whose rating is non-null, regardless of their status. -/
theorem course_rating_recompute_best_effort (s : List Assignment) (idx : ℕ)
    (raw_answer : String) (oracle : Option Grading) (email : String)
    (now : ℕ) (cr : Option ℚ) (ok1 ok2 : Bool) (a a' : Assignment)
    (g : TextGrade)
    (ha : s[idx]? = some a)
    (hsub : api_submit_assignment a raw_answer oracle email now = .ok (a', g))
    (hc : a'.course ≠ "")
    (hr : courseRatings (s.set idx a') a'.course ≠ []) :
    (api_submit_assignment_endpoint s idx raw_answer oracle email now ok1
        cr).1 =
      (api_submit_assignment_endpoint s idx raw_answer oracle email now ok2
        cr).1 ∧
    (api_submit_assignment_endpoint s idx raw_answer oracle email now ok1
        cr).2.2 =
      (api_submit_assignment_endpoint s idx raw_answer oracle email now ok2
        cr).2.2 ∧
    (api_submit_assignment_endpoint s idx raw_answer oracle email now true
        cr).2.1 =
      some ((courseRatings (s.set idx a') a'.course).sum /
        ((courseRatings (s.set idx a') a'.course).length : ℚ)) := by
  have hre : ¬((courseRatings (s.set idx a') a'.course).isEmpty = true) := by
    simp [List.isEmpty_iff, hr]
  simp only [api_submit_assignment_endpoint, ha, hsub]
  refine ⟨by trivial, by trivial, ?_⟩
  rw [if_pos (And.intro hc trivial)]
  simp only [courseAvgRating]
  rw [if_neg hre]

/-- A pending text assignment for the C10 witness. -/
def exTextAssignment : Assignment :=
  { assignment_type := "text", course := "Calculus", student_email := "",
    points := 100, difficulty_level := 1 }

def exSubmitTextResult : Except ApiError (Assignment × TextGrade) :=
  api_submit_assignment exTextAssignment "a fine answer" none "s@example.com" 5

/-- The stored document after submitting `exTextAssignment`. -/
def exTextDone : Assignment :=
  match exSubmitTextResult with
  | .ok p => p.1
  | .error _ => exTextAssignment

/-- The grade returned for that submission. -/
def exTextGrade : TextGrade :=
  match exSubmitTextResult with
  | .ok p => p.2
  | .error _ => ⟨0, 0, "", 1⟩

/-- Concrete instantiation of `course_rating_recompute_best_effort`. -/
theorem course_rating_recompute_best_effort_witness :
    (api_submit_assignment_endpoint [exTextAssignment] 0 "a fine answer" none
        "s@example.com" 5 true none).1 =
      (api_submit_assignment_endpoint [exTextAssignment] 0 "a fine answer"
        none "s@example.com" 5 false none).1 ∧
    (api_submit_assignment_endpoint [exTextAssignment] 0 "a fine answer" none
        "s@example.com" 5 true none).2.2 =
      (api_submit_assignment_endpoint [exTextAssignment] 0 "a fine answer"
        none "s@example.com" 5 false none).2.2 ∧
    (api_submit_assignment_endpoint [exTextAssignment] 0 "a fine answer" none
        "s@example.com" 5 true none).2.1 =
      some ((courseRatings ([exTextAssignment].set 0 exTextDone)
          exTextDone.course).sum /
        ((courseRatings ([exTextAssignment].set 0 exTextDone)
          exTextDone.course).length : ℚ)) :=
  course_rating_recompute_best_effort [exTextAssignment] 0 "a fine answer"
    none "s@example.com" 5 none true false exTextAssignment exTextDone
    exTextGrade (by rfl) (by rfl) (by decide) (by decide)

/-- C3 (amended): on both submission paths — MCQ quiz
(`api_submit_quiz_assignment`) and free-text (`api_submit_assignment`) —
score, rating, feedback and the completion timestamp are written together
with `status = completed` in the one `update_one` that completes the
assignment, and a freshly created quiz has all of them unset with
`status = pending`; however the admin mark-update route (see the
counterexample) and the manual path of `admin_resolve_report` (last
conjunct) can set score and/or rating while leaving the status — pending
included — and the completion timestamp untouched. -/
theorem completion_fields_set_atomically (a a' b t t' ra : Assignment)
    (g : QuizGrade) (tg : TextGrade) (answers : List (Option ℤ))
    (raw : List RawQuestion) (raw_ans c e email : String)
    (oracle : Option Grading) (r : Report) (sv : ℚ) (rv : Option ℚ)
    (cc now nowb nowt nowr : ℕ)
    (h : api_submit_quiz_assignment a answers now = .ok (a', g))
    (hb : api_start_quiz_assignment raw c e cc nowb = some b)
    (ht : api_submit_assignment t raw_ans oracle email nowt = .ok (t', tg)) :
    (a'.status = "completed" ∧ a'.score = some g.score ∧
      a'.rating = some g.rating ∧ a'.feedback = g.feedback ∧
      a'.completed_at = some now ∧ a'.results = some g.results) ∧
    (t'.status = "completed" ∧ t'.score = some tg.score ∧
      t'.rating = some tg.rating ∧ t'.feedback = tg.feedback ∧
      t'.completed_at = some nowt) ∧
    (b.status = "pending" ∧ b.score = none ∧ b.rating = none ∧
      b.feedback = "" ∧ b.completed_at = none) ∧
    ((admin_resolve_report r ra (some sv) rv nowr).2.status = ra.status ∧
      (admin_resolve_report r ra (some sv) rv nowr).2.score = some sv ∧
      (admin_resolve_report r ra (some sv) rv nowr).2.completed_at =
        ra.completed_at) := by
  refine ⟨?_, ?_, ?_, ?_⟩
  · simp only [api_submit_quiz_assignment] at h
    by_cases h1 : a.assignment_type ≠ "quiz_mcq"
    · rw [if_pos h1] at h; cases h
    · rw [if_neg h1] at h
      by_cases h2 : a.question_set.isEmpty
      · rw [if_pos h2] at h; cases h
      · rw [if_neg h2] at h
        injection h with h3
        injection h3 with h4 h5
        subst h4
        subst h5
        exact ⟨rfl, rfl, rfl, rfl, rfl, rfl⟩
  · simp only [api_submit_assignment] at ht
    by_cases h1 : strip raw_ans = ""
    · rw [if_pos h1] at ht; cases ht
    · rw [if_neg h1] at ht
      injection ht with h3
      injection h3 with h4 h5
      subst h4
      subst h5
      exact ⟨rfl, rfl, rfl, rfl, rfl⟩
  · simp only [api_start_quiz_assignment] at hb
    by_cases h1 : (cleanQuestions raw).isEmpty
    · rw [if_pos h1] at hb; cases hb
    · rw [if_neg h1] at hb
      injection hb with hb1
      subst hb1
      exact ⟨rfl, rfl, rfl, rfl, rfl⟩
  · simp only [admin_resolve_report]
    split
    next hcond => exact ⟨rfl, rfl, rfl⟩
    next hcond => exact absurd (Or.inl (by simp)) hcond

/-- Concrete instantiation of `completion_fields_set_atomically`: the quiz
and free-text submissions from the running examples, the created quiz, and
a manual resolution writing score 4 onto the completed example quiz. -/
theorem completion_fields_set_atomically_witness :
    (exCompletedQuiz.status = "completed" ∧
      exCompletedQuiz.score = some (gradeQuiz exQuestions [some 1, some 0]).score ∧
      exCompletedQuiz.rating = some (gradeQuiz exQuestions [some 1, some 0]).rating ∧
      exCompletedQuiz.feedback = (gradeQuiz exQuestions [some 1, some 0]).feedback ∧
      exCompletedQuiz.completed_at = some 3 ∧
      exCompletedQuiz.results = some (gradeQuiz exQuestions [some 1, some 0]).results) ∧
    (exTextDone.status = "completed" ∧ exTextDone.score = some exTextGrade.score ∧
      exTextDone.rating = some exTextGrade.rating ∧
      exTextDone.feedback = exTextGrade.feedback ∧
      exTextDone.completed_at = some 5) ∧
    (exCreatedQuiz.status = "pending" ∧ exCreatedQuiz.score = none ∧
      exCreatedQuiz.rating = none ∧ exCreatedQuiz.feedback = "" ∧
      exCreatedQuiz.completed_at = none) ∧
    ((admin_resolve_report exReport exGradedQuiz (some 4) none 12).2.status =
        exGradedQuiz.status ∧
      (admin_resolve_report exReport exGradedQuiz (some 4) none 12).2.score =
        some 4 ∧
      (admin_resolve_report exReport exGradedQuiz (some 4) none 12).2.completed_at =
        exGradedQuiz.completed_at) :=
  completion_fields_set_atomically exPendingQuiz exCompletedQuiz exCreatedQuiz
    exTextAssignment exTextDone exGradedQuiz
    (gradeQuiz exQuestions [some 1, some 0]) exTextGrade [some 1, some 0]
    exRawQuestions "a fine answer" "c" "e" "s@example.com" none exReport 4
    none 0 3 7 5 12 (by rfl) (by rfl) (by rfl)

end StudentLearning
